import Mathlib

/-!
Shallow embedding of `src/pkg/earthquakes/usgs/cache.go` (package `usgs`):
a keyed TTL cache in front of the USGS earthquake feed, with a bounded retry
loop, a cooldown-based error breaker and a mirrored statistics map.

Modelling conventions, kept uniform through the file:

* Go `time.Time` and `time.Duration` values are `Int` nanoseconds
  (`time.Minute = 60e9 ns`, `time.Hour = 3600e9 ns`); `a.After(b)` is the
  strict comparison `b < a`, exactly as in Go.
* Every `time.Now()` call inside one cache operation is modelled as the
  single instant `now` at which the operation executes (upstream latency is
  not modelled; the claims quantify over the instant of the call).
* The upstream collaborators are a parameter `FetchEnv`: `fetch` is the
  network call (spec section 6) and `parse` stands for
  `ToEarthquakeCollection`, repository code that is not under `src/`
  (modelled from the spec: a pure, deterministic parser taking the raw
  bytes and a strict flag).  `fetch` takes one extra `Nat` argument, a
  global invocation counter (`tick`), so that a single run can model
  different upstream responses on successive fetch attempts.
* The protobuf enums `Magnitude` and `Past` are generated repository code
  not under `src/`; they are modelled from the spec as Go represents them:
  `int32`-like named constants, a name table used by `String()` (unknown
  values print as their decimal number, as protoc-generated `String()`
  does), and the value collections `Magnitude_values` / `Past_values` that
  `init` and `cacheGetById` iterate.  Since Go iterates those tables as
  maps, their iteration order is not fixed; every place whose behaviour
  depends on that order takes the order as an explicit `order` parameter
  ranging over the possible iteration orders.
* Go mutates the `*entry` in place while holding its mutex; here the
  updated entry is written back into an explicit `CacheState`, and the
  per-key mutex (held for the whole call, source lines 108-112) makes each
  call an atomic state transformer, so concurrent executions are modelled
  as sequential interleavings of calls.
* The `stat` counters are Go `int`s that are only ever incremented or
  reset; overflow can never matter for the claims, so they are `Nat`.
* Results carry a ghost field `fetches` counting the `fetch` invocations
  performed by the call, and `cacheGetById` results carry a ghost `trace`
  of the per-window `cacheGetList` outcomes; these observations are used to
  state the claims and do not influence control flow.
-/

deriving instance DecidableEq for Except

namespace Quake

/-- Go protobuf enums are `int32` newtypes; model them as `Int`. -/
abbrev Magnitude := Int

/-- Go protobuf enums are `int32` newtypes; model them as `Int`. -/
abbrev Past := Int

/-- Modelled from the spec: the generated `api/v1` enum constant for the
dimension-1 sentinel "unspecified" (generated code, not under `src/`). -/
def Magnitude_MAGNITUDE_UNSPECIFIED : Magnitude := 0

/-- Modelled from the spec: a dimension-1 magnitude filter value. -/
def Magnitude_MAGNITUDE_SIGNIFICANT : Magnitude := 1

/-- Modelled from the spec: a dimension-1 magnitude filter value. -/
def Magnitude_MAGNITUDE_M45_PLUS : Magnitude := 2

/-- Modelled from the spec: a dimension-1 magnitude filter value. -/
def Magnitude_MAGNITUDE_M25_PLUS : Magnitude := 3

/-- Modelled from the spec: a dimension-1 magnitude filter value. -/
def Magnitude_MAGNITUDE_M10_PLUS : Magnitude := 4

/-- Modelled from the spec: the broadest dimension-1 value ("all
magnitudes"), used by the by-id fan-out. -/
def Magnitude_MAGNITUDE_ALL : Magnitude := 5

/-- Modelled from the spec: the dimension-2 sentinel excluded from fan-out
iteration. -/
def Past_PAST_UNSPECIFIED : Past := 0

/-- Modelled from the spec: the hour recency window. -/
def Past_PAST_HOUR : Past := 1

/-- Modelled from the spec: the day recency window. -/
def Past_PAST_DAY : Past := 2

/-- Modelled from the spec: the 7-day recency window. -/
def Past_PAST_7DAYS : Past := 3

/-- Modelled from the spec: the 30-day recency window. -/
def Past_PAST_30DAYS : Past := 4

/-- Modelled from the spec: the value collection of the `Magnitude` enum
(Go `Magnitude_value`, a `map[string]int32`; only the set of values
matters where it is iterated). -/
def Magnitude_values : List Magnitude := [0, 1, 2, 3, 4, 5]

/-- Modelled from the spec: the value collection of the `Past` enum
(Go `Past_value`, a `map[string]int32`). -/
def Past_values : List Past := [0, 1, 2, 3, 4]

/-- Modelled from the spec: `Magnitude.String()` of the generated enum;
an unknown value prints as its decimal number. -/
def magnitudeString (m : Magnitude) : String :=
  if m = 0 then "MAGNITUDE_UNSPECIFIED"
  else if m = 1 then "MAGNITUDE_SIGNIFICANT"
  else if m = 2 then "MAGNITUDE_M45_PLUS"
  else if m = 3 then "MAGNITUDE_M25_PLUS"
  else if m = 4 then "MAGNITUDE_M10_PLUS"
  else if m = 5 then "MAGNITUDE_ALL"
  else toString m

/-- Modelled from the spec: `Past.String()` of the generated enum. -/
def pastString (p : Past) : String :=
  if p = 0 then "PAST_UNSPECIFIED"
  else if p = 1 then "PAST_HOUR"
  else if p = 2 then "PAST_DAY"
  else if p = 3 then "PAST_7DAYS"
  else if p = 4 then "PAST_30DAYS"
  else toString p

/-- Source line 33: retry budget of one `cacheGetList` call. -/
def maxTriesForRequest : Nat := 3

/-- Source line 34: breaker threshold on `errCountSinceReset`. -/
def maxErrorsTotal : Nat := 10

/-- Go `time.Minute` in nanoseconds. -/
def minuteNs : Int := 60000000000

/-- Source line 35: `waitBeforeReset = time.Hour`, in nanoseconds. -/
def waitBeforeReset : Int := 3600000000000

/-- Source lines 191-193: `resolveCacheKey` concatenates the two enum
names with an `@` separator. -/
def resolveCacheKey (magnitude : Magnitude) (past : Past) : String :=
  magnitudeString magnitude ++ "@" ++ pastString past

/-- Source lines 195-208: `resolveMaxAge`, the TTL table (a Go `switch`
on `past`; the `magnitude` argument is not inspected). -/
def resolveMaxAge (magnitude : Magnitude) (past : Past) : Int :=
  if past = Past_PAST_HOUR then 3 * minuteNs
  else if past = Past_PAST_DAY then 5 * minuteNs
  else if past = Past_PAST_7DAYS then 10 * minuteNs
  else if past = Past_PAST_30DAYS then 15 * minuteNs
  else 15 * minuteNs

/-- Modelled from the spec: a `pb.Earthquake` record; the cache code reads
only its `Id` field (source line 83), so the other protobuf fields are
omitted. -/
structure Earthquake where
  id : String
deriving DecidableEq

/-- Modelled from the spec: a `pb.EarthquakeCollection`, an ordered
sequence of records (`Features` in the source). -/
structure EarthquakeCollection where
  features : List Earthquake
deriving DecidableEq

/-- Go `error` values seen by the cache: the two sentinels declared at
source lines 49 and 52, plus passthrough upstream fetch and parse errors
(surfaced verbatim per spec section 7). -/
inductive Err where
  | cacheFailure
  | notFound
  | fetchFail (msg : String)
  | parseFail (msg : String)
deriving DecidableEq

/-- Source lines 15-18: the `stat` counters of a cache entry. -/
structure Stat where
  fetchCount : Nat
  hitCount : Nat
deriving DecidableEq

/-- Source lines 21-30: a cache entry (its `sync.Mutex` is the per-key
serialization point and carries no data; the embedded `stat` is inlined).
The Go zero `time.Time` values of a fresh entry are modelled as `0`. -/
structure Entry where
  col : Option EarthquakeCollection
  expires : Int
  errCountSinceReset : Nat
  lastErrTime : Int
  lastErr : Option Err
  fetchCount : Nat
  hitCount : Nat
deriving DecidableEq

/-- The embedded `stat` of an entry (Go reads `entry.stat`). -/
def Entry.stat (e : Entry) : Stat :=
  { fetchCount := e.fetchCount, hitCount := e.hitCount }

/-- Go `&entry{}`: the zero-valued entry created by `init`. -/
def emptyEntry : Entry :=
  { col := none, expires := 0, errCountSinceReset := 0, lastErrTime := 0
  , lastErr := none, fetchCount := 0, hitCount := 0 }

/-- Source lines 38-46: the two package-level maps, `entries` (one slot
per valid key) and `statCopies` (the statistics mirror). -/
structure CacheState where
  entries : String → Option Entry
  statCopies : String → Option Stat

/-- Writing the (in Go, pointer-mutated) entry back into the `entries`
map. -/
def CacheState.setEntry (cs : CacheState) (k : String) (e : Entry) : CacheState :=
  { cs with entries := fun k' => if k' = k then some e else cs.entries k' }

/-- Source lines 54-66: `init` allocates one zero entry for every
(magnitude, past) combination and an empty statistics mirror. -/
def allCacheKeys : List String :=
  Magnitude_values.flatMap fun m => Past_values.map fun p => resolveCacheKey m p

/-- The package state right after `init` ran. -/
def initState : CacheState :=
  { entries := fun k => if allCacheKeys.contains k then some emptyEntry else none
  , statCopies := fun _ => none }

/-- Source lines 183-189: `cacheSetStat` replaces the mirrored snapshot
for the key (the write lock only serializes the map access). -/
def cacheSetStat (magnitude : Magnitude) (past : Past) (s : Stat)
    (cs : CacheState) : CacheState :=
  { cs with statCopies := fun k =>
      if k = resolveCacheKey magnitude past then some s else cs.statCopies k }

/-- Source lines 171-181: `cacheGetStat` returns the mirrored snapshot,
or the zero value when the key is unknown to the mirror. -/
def cacheGetStat (magnitude : Magnitude) (past : Past) (cs : CacheState) : Stat :=
  match cs.statCopies (resolveCacheKey magnitude past) with
  | none => { fetchCount := 0, hitCount := 0 }
  | some s => s

/-- Raw bytes returned by the upstream fetch; opaque to the cache, so an
abstract token suffices. -/
abbrev Data := Nat

/-- The external collaborators of the cache (spec section 6).
`fetch magnitude past i` is the upstream call, where `i` is the global
invocation counter distinguishing successive attempts; `parse data strict`
stands for `ToEarthquakeCollection` (repository code not under `src/`,
modelled from the spec as a pure deterministic parser). Both return a Go
`(value, error)` pair, modelled as `Except` with the error message. -/
structure FetchEnv where
  fetch : Magnitude → Past → Nat → Except String Data
  parse : Data → Bool → Except String EarthquakeCollection

/-- One fetch-then-parse cycle of the retry loop (source lines 138-149):
`fetch` followed, on success, by `ToEarthquakeCollection(data, true)`.
The two identical failure blocks of the source are distinguished by the
error kind. -/
def attemptOnce (env : FetchEnv) (magnitude : Magnitude) (past : Past)
    (i : Nat) : Except Err EarthquakeCollection :=
  match env.fetch magnitude past i with
  | .error msg => .error (.fetchFail msg)
  | .ok data =>
    match env.parse data true with
    | .error msg => .error (.parseFail msg)
    | .ok col => .ok col

/-- Outcome of one `cacheGetList` call: the returned Go pair, the package
state after the call, and the ghost count of `fetch` invocations. -/
structure GetListResult where
  res : Except Err EarthquakeCollection
  state : CacheState
  fetches : Nat

/-- Source lines 164-168: the exit of the retry loop, returning the
remembered `lastErr` when set and `ErrCacheFailure` otherwise, with the
mutated entry written back. -/
def loopExit (cs : CacheState) (key : String) (e : Entry) (fetched : Nat) :
    GetListResult :=
  { res := match e.lastErr with
           | none => .error .cacheFailure
           | some err => .error err
  , state := cs.setEntry key e
  , fetches := fetched }

/-- Source lines 115-118: an expired cached collection is dropped before
any other logic runs (`time.Now().After(entry.expires)` is the strict
`entry.expires < now`). -/
def discardIfExpired (e : Entry) (now : Int) : Entry :=
  match e.col with
  | none => e
  | some _ => if e.expires < now then { e with col := none } else e

/-- Source lines 126-132: the lazy breaker reset, clearing the error
counter and last error once the breaker is tripped and the cooldown has
elapsed (strictly, as `After` is strict). -/
def breakerReset (e : Entry) (now : Int) : Entry :=
  if e.errCountSinceReset ≥ maxErrorsTotal ∧ e.lastErrTime + waitBeforeReset < now then
    { e with errCountSinceReset := 0, lastErr := none }
  else e

/-- Source lines 136-162: the retry loop. The Go loop condition
`round < maxTriesForRequest && errCountSinceReset < maxErrorsTotal` with
ascending `round` is rendered with the descending remaining budget
`remaining = maxTriesForRequest - round`; `fetched` counts the fetch
attempts made so far (equal to `round`) and indexes the environment. -/
def fetchLoop (env : FetchEnv) (now : Int) (tick : Nat)
    (magnitude : Magnitude) (past : Past) (key : String) (cs : CacheState) :
    Entry → Nat → Nat → GetListResult
  | e, fetched, 0 => loopExit cs key e fetched
  | e, fetched, remaining + 1 =>
    if e.errCountSinceReset < maxErrorsTotal then
      match attemptOnce env magnitude past (tick + fetched) with
      | .error err =>
        fetchLoop env now tick magnitude past key cs
          { e with errCountSinceReset := e.errCountSinceReset + 1
                 , lastErr := some err
                 , lastErrTime := now }
          (fetched + 1) remaining
      | .ok col =>
        let e' : Entry :=
          { e with col := some col
                 , fetchCount := e.fetchCount + 1
                 , expires := now + resolveMaxAge magnitude past
                 , errCountSinceReset := 0
                 , lastErr := none }
        { res := .ok col
        , state := cacheSetStat magnitude past e'.stat (cs.setEntry key e')
        , fetches := fetched + 1 }
    else loopExit cs key e fetched

/-- Source lines 97-169: `cacheGetList`. Resolve the key (missing entry
is `ErrCacheFailure`), drop an expired collection, serve a hit, otherwise
run the lazy breaker reset followed by the retry loop. The source nests
the expiry test inside `entry.col != nil`; `discardIfExpired` followed by
the match on the remaining collection is the same decision tree. -/
def cacheGetList (env : FetchEnv) (now : Int) (tick : Nat)
    (magnitude : Magnitude) (past : Past) (cs : CacheState) : GetListResult :=
  match cs.entries (resolveCacheKey magnitude past) with
  | none => { res := .error .cacheFailure, state := cs, fetches := 0 }
  | some e =>
    let e1 := discardIfExpired e now
    match e1.col with
    | some c =>
      let e2 : Entry := { e1 with hitCount := e1.hitCount + 1 }
      { res := .ok c
      , state := cacheSetStat magnitude past e2.stat
          (cs.setEntry (resolveCacheKey magnitude past) e2)
      , fetches := 0 }
    | none =>
      fetchLoop env now tick magnitude past (resolveCacheKey magnitude past) cs
        (breakerReset e1 now) 0 maxTriesForRequest

/-- Outcome of one `cacheGetById` call: the returned Go pair, the state
after the call, the ghost trace of per-window `cacheGetList` outcomes in
the order they were made (with the magnitude used), and the ghost total of
`fetch` invocations. -/
structure ByIdResult where
  res : Except Err Earthquake
  state : CacheState
  trace : List ((Magnitude × Past) × Except Err EarthquakeCollection)
  fetches : Nat

/-- The most recently observed window error of a trace (the `lastErr`
variable of source lines 72-93): the last `.error` among the outcomes,
if any. -/
def traceLastErr :
    List ((Magnitude × Past) × Except Err EarthquakeCollection) → Option Err
  | [] => none
  | q :: rest =>
    match traceLastErr rest with
    | some e => some e
    | none =>
      match q.2 with
      | .error e => some e
      | .ok _ => none

/-- Source lines 69-95: the body of `cacheGetById`. The `order` list is
the iteration order of the Go `range` over the `Past_value` map for this
run; the sentinel is skipped inside the loop as in the source, a window
error is remembered in `lastErr` while later windows are still tried, and
the first collection containing the identifier returns immediately. -/
def cacheGetByIdLoop (env : FetchEnv) (now : Int) (id : String) :
    Nat → CacheState → Option Err → List Past → ByIdResult
  | _tick, cs, lastErr, [] =>
    { res := match lastErr with
             | some e => .error e
             | none => .error .notFound
    , state := cs, trace := [], fetches := 0 }
  | tick, cs, lastErr, past :: rest =>
    if past = Past_PAST_UNSPECIFIED then
      cacheGetByIdLoop env now id tick cs lastErr rest
    else
      let r := cacheGetList env now tick Magnitude_MAGNITUDE_ALL past cs
      match r.res with
      | .error err =>
        let out := cacheGetByIdLoop env now id (tick + r.fetches) r.state (some err) rest
        { res := out.res, state := out.state
        , trace := ((Magnitude_MAGNITUDE_ALL, past), Except.error err) :: out.trace
        , fetches := r.fetches + out.fetches }
      | .ok col =>
        match col.features.find? (fun eq => eq.id == id) with
        | some eq =>
          { res := .ok eq, state := r.state
          , trace := [((Magnitude_MAGNITUDE_ALL, past), Except.ok col)]
          , fetches := r.fetches }
        | none =>
          let out := cacheGetByIdLoop env now id (tick + r.fetches) r.state lastErr rest
          { res := out.res, state := out.state
          , trace := ((Magnitude_MAGNITUDE_ALL, past), Except.ok col) :: out.trace
          , fetches := r.fetches + out.fetches }

/-- Source lines 69-95: `cacheGetById`, entered with no remembered error;
`order` is this run's iteration order of the `Past_value` map. -/
def cacheGetById (env : FetchEnv) (now : Int) (tick : Nat)
    (order : List Past) (id : String) (cs : CacheState) : ByIdResult :=
  cacheGetByIdLoop env now id tick cs none order

/-- The TTL table exactly as the spec words it (section 4.4), written from
the spec for comparison with `resolveMaxAge`: keyed on the recency window
only, hour 3 minutes, day 5 minutes, 7 days 10 minutes, 30 days and any
other value 15 minutes. -/
def ttlSpec (past : Past) : Int :=
  if past = Past_PAST_HOUR then 3 * minuteNs
  else if past = Past_PAST_DAY then 5 * minuteNs
  else if past = Past_PAST_7DAYS then 10 * minuteNs
  else if past = Past_PAST_30DAYS then 15 * minuteNs
  else 15 * minuteNs

/-- A sample collection with one record, used by concrete runs. -/
def col0 : EarthquakeCollection := { features := [{ id := "eq1" }] }

/-- An environment whose upstream always succeeds and parses to `col0`. -/
def envOK : FetchEnv :=
  { fetch := fun _ _ _ => .ok 0
  , parse := fun _ _ => .ok col0 }

/-- An environment whose upstream fails every fetch, with the invocation
counter in the message so successive attempts are distinguishable. -/
def envAllFail : FetchEnv :=
  { fetch := fun _ _ i => .error (toString i)
  , parse := fun _ _ => .error "unreachable" }

/-- An environment whose upstream fails every fetch with the requested
window in the message, so the reported error identifies the window. -/
def envWinFail : FetchEnv :=
  { fetch := fun _ p _ => .error (pastString p)
  , parse := fun _ _ => .error "unreachable" }

/-! ## Lemmas about the retry loop -/

/-- The retry loop never exceeds its remaining budget of fetch attempts. -/
theorem fetchLoop_fetches_le (env : FetchEnv) (now : Int) (tick : Nat)
    (m : Magnitude) (p : Past) (key : String) (cs : CacheState) :
    ∀ (remaining : Nat) (e : Entry) (fetched : Nat),
      (fetchLoop env now tick m p key cs e fetched remaining).fetches ≤ fetched + remaining := by
  intro remaining
  induction remaining with
  | zero => intro e fetched; simp [fetchLoop, loopExit]
  | succ r ih =>
    intro e fetched
    simp only [fetchLoop]
    by_cases hc : e.errCountSinceReset < maxErrorsTotal
    · rw [if_pos hc]
      cases hA : attemptOnce env m p (tick + fetched) with
      | error err => exact le_trans (ih _ _) (by omega)
      | ok col => simp only []; omega
    · rw [if_neg hc]; simp [loopExit]

/-- The fetch counter of the retry loop only grows. -/
theorem fetchLoop_fetches_ge (env : FetchEnv) (now : Int) (tick : Nat)
    (m : Magnitude) (p : Past) (key : String) (cs : CacheState) :
    ∀ (remaining : Nat) (e : Entry) (fetched : Nat),
      fetched ≤ (fetchLoop env now tick m p key cs e fetched remaining).fetches := by
  intro remaining
  induction remaining with
  | zero => intro e fetched; simp [fetchLoop, loopExit]
  | succ r ih =>
    intro e fetched
    simp only [fetchLoop]
    by_cases hc : e.errCountSinceReset < maxErrorsTotal
    · rw [if_pos hc]
      cases hA : attemptOnce env m p (tick + fetched) with
      | error err => exact le_trans (by omega) (ih _ (fetched + 1))
      | ok col => simp only []; omega
    · rw [if_neg hc]; simp [loopExit]

/-- If the breaker allows at least one round, the loop makes at least one
fetch attempt. -/
theorem fetchLoop_step_fetches (env : FetchEnv) (now : Int) (tick : Nat)
    (m : Magnitude) (p : Past) (key : String) (cs : CacheState)
    (r : Nat) (e : Entry) (fetched : Nat)
    (hc : e.errCountSinceReset < maxErrorsTotal) :
    fetched + 1 ≤ (fetchLoop env now tick m p key cs e fetched (r + 1)).fetches := by
  simp only [fetchLoop]
  rw [if_pos hc]
  cases hA : attemptOnce env m p (tick + fetched) with
  | error err => exact fetchLoop_fetches_ge env now tick m p key cs r _ (fetched + 1)
  | ok col => simp only []; omega

/-- With the breaker tripped on entry, the loop exits at once. -/
theorem fetchLoop_tripped (env : FetchEnv) (now : Int) (tick : Nat)
    (m : Magnitude) (p : Past) (key : String) (cs : CacheState)
    (remaining : Nat) (e : Entry) (fetched : Nat)
    (hc : maxErrorsTotal ≤ e.errCountSinceReset) :
    fetchLoop env now tick m p key cs e fetched remaining = loopExit cs key e fetched := by
  cases remaining with
  | zero => simp [fetchLoop]
  | succ r => simp only [fetchLoop]; rw [if_neg (by omega)]

/-- Characterization of a successful retry loop: some attempt `j` within
the budget produced the collection; the stored entry has the collection,
a fresh expiry of `now` plus the TTL, cleared error state, the fetch
counter bumped by one, and the snapshot mirrored. -/
theorem fetchLoop_ok (env : FetchEnv) (now : Int) (tick : Nat)
    (m : Magnitude) (p : Past) (key : String) (cs : CacheState) :
    ∀ (remaining : Nat) (e : Entry) (fetched : Nat) (c : EarthquakeCollection),
      (fetchLoop env now tick m p key cs e fetched remaining).res = .ok c →
      ∃ j e',
        fetched ≤ j ∧ j < fetched + remaining ∧
        attemptOnce env m p (tick + j) = .ok c ∧
        (fetchLoop env now tick m p key cs e fetched remaining).fetches = j + 1 ∧
        (fetchLoop env now tick m p key cs e fetched remaining).state.entries key = some e' ∧
        e'.col = some c ∧
        e'.expires = now + resolveMaxAge m p ∧
        e'.errCountSinceReset = 0 ∧
        e'.lastErr = none ∧
        e'.fetchCount = e.fetchCount + 1 ∧
        e'.hitCount = e.hitCount ∧
        (fetchLoop env now tick m p key cs e fetched remaining).state.statCopies
          (resolveCacheKey m p) = some e'.stat := by
  intro remaining
  induction remaining with
  | zero =>
    intro e fetched c h
    exfalso
    cases he : e.lastErr <;> simp [fetchLoop, loopExit, he] at h
  | succ r ih =>
    intro e fetched c h
    simp only [fetchLoop] at h ⊢
    by_cases hc : e.errCountSinceReset < maxErrorsTotal
    · rw [if_pos hc] at h ⊢
      cases hA : attemptOnce env m p (tick + fetched) with
      | error err =>
        rw [hA] at h
        dsimp only [] at h ⊢
        obtain ⟨j, e', h1, h2, h3⟩ := ih _ _ _ h
        exact ⟨j, e', by omega, by omega, h3⟩
      | ok col =>
        rw [hA] at h
        dsimp only [] at h ⊢
        cases h
        refine ⟨fetched,
          { e with col := some c, fetchCount := e.fetchCount + 1
                 , expires := now + resolveMaxAge m p
                 , errCountSinceReset := 0, lastErr := none },
          le_refl _, by omega, hA, rfl, ?_, rfl, rfl, rfl, rfl, rfl, rfl, ?_⟩
        · simp [cacheSetStat, CacheState.setEntry]
        · simp [cacheSetStat, CacheState.setEntry]
    · exfalso
      rw [if_neg hc] at h
      cases he : e.lastErr <;> simp [loopExit, he] at h


/-- A retry loop that ends in an error never touches the statistics
mirror. -/
theorem fetchLoop_err_statCopies (env : FetchEnv) (now : Int) (tick : Nat)
    (m : Magnitude) (p : Past) (key : String) (cs : CacheState) :
    ∀ (remaining : Nat) (e : Entry) (fetched : Nat) (err : Err),
      (fetchLoop env now tick m p key cs e fetched remaining).res = .error err →
      (fetchLoop env now tick m p key cs e fetched remaining).state.statCopies
        = cs.statCopies := by
  intro remaining
  induction remaining with
  | zero => intro e fetched err _; simp [fetchLoop, loopExit, CacheState.setEntry]
  | succ r ih =>
    intro e fetched err h
    simp only [fetchLoop] at h ⊢
    by_cases hc : e.errCountSinceReset < maxErrorsTotal
    · rw [if_pos hc] at h ⊢
      cases hA : attemptOnce env m p (tick + fetched) with
      | error e2 =>
        rw [hA] at h
        dsimp only [] at h ⊢
        exact ih _ _ _ h
      | ok col =>
        rw [hA] at h
        dsimp only [] at h
        exact absurd h (by simp)
    · rw [if_neg hc]
      simp [loopExit, CacheState.setEntry]

/-! ## Lemmas about the expiry and breaker steps -/

/-- With no cached collection the discard step does nothing. -/
theorem discardIfExpired_none (e : Entry) (now : Int) (h : e.col = none) :
    discardIfExpired e now = e := by
  simp [discardIfExpired, h]

/-- A fresh cached collection survives the discard step. -/
theorem discardIfExpired_fresh (e : Entry) (now : Int) (c : EarthquakeCollection)
    (h : e.col = some c) (hexp : ¬ e.expires < now) :
    discardIfExpired e now = e := by
  simp [discardIfExpired, h, hexp]

/-- An expired cached collection is dropped. -/
theorem discardIfExpired_expired (e : Entry) (now : Int) (c : EarthquakeCollection)
    (h : e.col = some c) (hexp : e.expires < now) :
    discardIfExpired e now = { e with col := none } := by
  simp [discardIfExpired, h, hexp]

/-- The discard step changes no field but the collection. -/
theorem discardIfExpired_frame (e : Entry) (now : Int) :
    (discardIfExpired e now).expires = e.expires ∧
    (discardIfExpired e now).errCountSinceReset = e.errCountSinceReset ∧
    (discardIfExpired e now).lastErrTime = e.lastErrTime ∧
    (discardIfExpired e now).lastErr = e.lastErr ∧
    (discardIfExpired e now).fetchCount = e.fetchCount ∧
    (discardIfExpired e now).hitCount = e.hitCount := by
  unfold discardIfExpired
  cases h : e.col
  case none => simp
  case some c =>
    by_cases hexp : e.expires < now
    · rw [if_pos hexp]; simp
    · rw [if_neg hexp]; simp

/-- Below the breaker threshold the lazy reset does nothing. -/
theorem breakerReset_healthy (e : Entry) (now : Int)
    (h : e.errCountSinceReset < maxErrorsTotal) :
    breakerReset e now = e := by
  unfold breakerReset
  rw [if_neg (by omega)]

/-- Within the cooldown the lazy reset does nothing. -/
theorem breakerReset_cooling (e : Entry) (now : Int)
    (h : ¬ e.lastErrTime + waitBeforeReset < now) :
    breakerReset e now = e := by
  unfold breakerReset
  rw [if_neg (by tauto)]

/-- Once the breaker is tripped and the cooldown has elapsed (strictly),
the counter and last error are cleared. -/
theorem breakerReset_elapsed (e : Entry) (now : Int)
    (h : maxErrorsTotal ≤ e.errCountSinceReset)
    (h2 : e.lastErrTime + waitBeforeReset < now) :
    breakerReset e now = { e with errCountSinceReset := 0, lastErr := none } := by
  unfold breakerReset
  rw [if_pos ⟨h, h2⟩]

/-! ## Reduction lemmas for cacheGetList -/

/-- Reduction of `cacheGetList` for a key that is absent from the entry
store. -/
theorem cacheGetList_noEntry (env : FetchEnv) (now : Int) (tick : Nat)
    (m : Magnitude) (p : Past) (cs : CacheState)
    (h : cs.entries (resolveCacheKey m p) = none) :
    cacheGetList env now tick m p cs
      = { res := .error .cacheFailure, state := cs, fetches := 0 } := by
  unfold cacheGetList
  rw [h]

/-- Reduction of `cacheGetList` on the cache-hit path: a present, fresh
collection is returned with no fetch, the hit counter bumped and the
snapshot mirrored. -/
theorem cacheGetList_hit (env : FetchEnv) (now : Int) (tick : Nat)
    (m : Magnitude) (p : Past) (cs : CacheState) (e : Entry)
    (c : EarthquakeCollection)
    (hE : cs.entries (resolveCacheKey m p) = some e)
    (hcol : e.col = some c) (hexp : ¬ e.expires < now) :
    cacheGetList env now tick m p cs
      = { res := .ok c
        , state := cacheSetStat m p { fetchCount := e.fetchCount, hitCount := e.hitCount + 1 }
            (cs.setEntry (resolveCacheKey m p) { e with hitCount := e.hitCount + 1 })
        , fetches := 0 } := by
  unfold cacheGetList
  rw [hE]
  dsimp only []
  rw [discardIfExpired_fresh e now c hcol hexp, hcol]
  simp [Entry.stat]

/-- Reduction of `cacheGetList` to the breaker step plus retry loop when
no valid cached collection remains after the discard step. -/
theorem cacheGetList_miss (env : FetchEnv) (now : Int) (tick : Nat)
    (m : Magnitude) (p : Past) (cs : CacheState) (e : Entry)
    (hE : cs.entries (resolveCacheKey m p) = some e)
    (hcol : (discardIfExpired e now).col = none) :
    cacheGetList env now tick m p cs
      = fetchLoop env now tick m p (resolveCacheKey m p) cs
          (breakerReset (discardIfExpired e now) now) 0 maxTriesForRequest := by
  unfold cacheGetList
  rw [hE]
  dsimp only []
  rw [hcol]

/-! ## Lemmas about the by-id fan-out -/

/-- Every window call of the fan-out is made at the broadest magnitude
and never for the unspecified sentinel. -/
theorem byIdLoop_trace_mem (env : FetchEnv) (now : Int) (id : String) :
    ∀ (order : List Past) (tick : Nat) (cs : CacheState) (lastErr : Option Err),
      ∀ q ∈ (cacheGetByIdLoop env now id tick cs lastErr order).trace,
        q.1.1 = Magnitude_MAGNITUDE_ALL ∧ q.1.2 ≠ Past_PAST_UNSPECIFIED := by
  intro order
  induction order with
  | nil => intro tick cs lastErr q hq; simp [cacheGetByIdLoop] at hq
  | cons past rest ih =>
    intro tick cs lastErr q hq
    simp only [cacheGetByIdLoop] at hq
    by_cases hp : past = Past_PAST_UNSPECIFIED
    · rw [if_pos hp] at hq
      exact ih _ _ _ q hq
    · rw [if_neg hp] at hq
      cases hr : (cacheGetList env now tick Magnitude_MAGNITUDE_ALL past cs).res with
      | error err =>
        rw [hr] at hq
        dsimp only [] at hq
        rcases List.mem_cons.mp hq with h | h
        · subst h; exact ⟨rfl, hp⟩
        · exact ih _ _ _ q h
      | ok col =>
        rw [hr] at hq
        dsimp only [] at hq
        cases hf : col.features.find? (fun eq => eq.id == id) with
        | some eq =>
          rw [hf] at hq
          dsimp only [] at hq
          rcases List.mem_singleton.mp hq with h
          subst h; exact ⟨rfl, hp⟩
        | none =>
          rw [hf] at hq
          dsimp only [] at hq
          rcases List.mem_cons.mp hq with h | h
          · subst h; exact ⟨rfl, hp⟩
          · exact ih _ _ _ q h

/-- The windows actually queried by the fan-out follow this run's
iteration order: they are an initial segment of the order with the
sentinel filtered out (the remainder `t` is what the short-circuit
skipped). -/
theorem byIdLoop_trace_order (env : FetchEnv) (now : Int) (id : String) :
    ∀ (order : List Past) (tick : Nat) (cs : CacheState) (lastErr : Option Err),
      ∃ t, order.filter (fun p => p != Past_PAST_UNSPECIFIED)
        = (cacheGetByIdLoop env now id tick cs lastErr order).trace.map (fun q => q.1.2) ++ t := by
  intro order
  induction order with
  | nil => intro tick cs lastErr; exact ⟨[], by simp [cacheGetByIdLoop]⟩
  | cons past rest ih =>
    intro tick cs lastErr
    simp only [cacheGetByIdLoop]
    by_cases hp : past = Past_PAST_UNSPECIFIED
    · rw [if_pos hp, List.filter_cons_of_neg (by simp [hp])]
      exact ih _ _ _
    · rw [if_neg hp, List.filter_cons_of_pos (by simp [hp])]
      cases hr : (cacheGetList env now tick Magnitude_MAGNITUDE_ALL past cs).res with
      | error err =>
        dsimp only []
        obtain ⟨t, ht⟩ := ih (tick + (cacheGetList env now tick Magnitude_MAGNITUDE_ALL past cs).fetches)
          (cacheGetList env now tick Magnitude_MAGNITUDE_ALL past cs).state (some err)
        exact ⟨t, by simp only [List.map_cons, List.cons_append]; rw [← ht]⟩
      | ok col =>
        dsimp only []
        cases hf : col.features.find? (fun eq => eq.id == id) with
        | some eq =>
          dsimp only []
          exact ⟨rest.filter (fun p => p != Past_PAST_UNSPECIFIED), by simp⟩
        | none =>
          dsimp only []
          obtain ⟨t, ht⟩ := ih (tick + (cacheGetList env now tick Magnitude_MAGNITUDE_ALL past cs).fetches)
            (cacheGetList env now tick Magnitude_MAGNITUDE_ALL past cs).state lastErr
          exact ⟨t, by simp only [List.map_cons, List.cons_append]; rw [← ht]⟩

/-- A successful fan-out returns a record with the requested identifier,
found in the last queried window's collection, and no earlier successful
window contained the identifier (the search short-circuits on the first
match). -/
theorem byIdLoop_ok (env : FetchEnv) (now : Int) (id : String) :
    ∀ (order : List Past) (tick : Nat) (cs : CacheState) (lastErr : Option Err)
      (eq : Earthquake),
      (cacheGetByIdLoop env now id tick cs lastErr order).res = .ok eq →
      eq.id = id ∧
      ∃ pre w col,
        (cacheGetByIdLoop env now id tick cs lastErr order).trace
          = pre ++ [(w, Except.ok col)] ∧
        col.features.find? (fun r => r.id == id) = some eq ∧
        ∀ w' col', (w', Except.ok col') ∈ pre →
          col'.features.find? (fun r => r.id == id) = none := by
  intro order
  induction order with
  | nil =>
    intro tick cs lastErr eq h
    exfalso
    cases lastErr <;> simp [cacheGetByIdLoop] at h
  | cons past rest ih =>
    intro tick cs lastErr eq h
    simp only [cacheGetByIdLoop] at h ⊢
    by_cases hp : past = Past_PAST_UNSPECIFIED
    · rw [if_pos hp] at h ⊢
      exact ih _ _ _ _ h
    · rw [if_neg hp] at h ⊢
      generalize hr : (cacheGetList env now tick Magnitude_MAGNITUDE_ALL past cs).res = rres at h ⊢
      cases rres with
      | error err =>
        dsimp only [] at h ⊢
        obtain ⟨hid, pre, w, col, htr, hfind, hpre⟩ := ih _ _ _ _ h
        refine ⟨hid, ((Magnitude_MAGNITUDE_ALL, past), Except.error err) :: pre, w, col,
          ?_, hfind, ?_⟩
        · rw [htr]; rfl
        · intro w' col' hmem
          rcases List.mem_cons.mp hmem with hh | hh
          · exact absurd (congrArg Prod.snd hh).symm (by simp)
          · exact hpre w' col' hh
      | ok col =>
        dsimp only [] at h ⊢
        generalize hf : List.find? (fun eq => eq.id == id) col.features = fres at h ⊢
        cases fres with
        | some eq0 =>
          dsimp only [] at h
          cases h
          have hid : eq.id = id := by simpa using List.find?_some hf
          exact ⟨hid, [], (Magnitude_MAGNITUDE_ALL, past), col, rfl, hf, by simp⟩
        | none =>
          dsimp only [] at h ⊢
          obtain ⟨hid, pre, w, col', htr, hfind, hpre⟩ := ih _ _ _ _ h
          refine ⟨hid, ((Magnitude_MAGNITUDE_ALL, past), Except.ok col) :: pre, w, col',
            ?_, hfind, ?_⟩
          · rw [htr]; rfl
          · intro w' col'' hmem
            rcases List.mem_cons.mp hmem with hh | hh
            · have hcc : col = col'' := by simpa using (congrArg Prod.snd hh).symm
              rw [← hcc]; exact hf
            · exact hpre w' col'' hh

/-- A failed fan-out reports the most recently observed window error of
the run when any window failed; with no window error it reports the
remembered error it entered with, or not-found. -/
theorem byIdLoop_err_last (env : FetchEnv) (now : Int) (id : String) :
    ∀ (order : List Past) (tick : Nat) (cs : CacheState) (lastErr : Option Err)
      (err : Err),
      (cacheGetByIdLoop env now id tick cs lastErr order).res = .error err →
      traceLastErr (cacheGetByIdLoop env now id tick cs lastErr order).trace = some err ∨
      (traceLastErr (cacheGetByIdLoop env now id tick cs lastErr order).trace = none ∧
        (lastErr = some err ∨ (lastErr = none ∧ err = .notFound))) := by
  intro order
  induction order with
  | nil =>
    intro tick cs lastErr err h
    cases lastErr with
    | some e0 =>
      simp only [cacheGetByIdLoop] at h ⊢
      try dsimp only [] at h
      cases h
      exact Or.inr ⟨by simp [traceLastErr], by simp⟩
    | none =>
      simp only [cacheGetByIdLoop] at h ⊢
      try dsimp only [] at h
      cases h
      exact Or.inr ⟨by simp [traceLastErr], by simp⟩
  | cons past rest ih =>
    intro tick cs lastErr err h
    simp only [cacheGetByIdLoop] at h ⊢
    by_cases hp : past = Past_PAST_UNSPECIFIED
    · rw [if_pos hp] at h ⊢
      exact ih _ _ _ _ h
    · rw [if_neg hp] at h ⊢
      generalize hr : (cacheGetList env now tick Magnitude_MAGNITUDE_ALL past cs).res = rres at h ⊢
      cases rres with
      | error err0 =>
        dsimp only [] at h ⊢
        rcases ih _ _ _ _ h with hlast | ⟨hnone, hcase⟩
        · left; simp [traceLastErr, hlast]
        · rcases hcase with he | ⟨he, _⟩
          · cases he
            left; simp [traceLastErr, hnone]
          · exact absurd he (by simp)
      | ok col =>
        dsimp only [] at h ⊢
        generalize hf : List.find? (fun eq => eq.id == id) col.features = fres at h ⊢
        cases fres with
        | some eq0 =>
          dsimp only [] at h
          exact absurd h (by simp)
        | none =>
          dsimp only [] at h ⊢
          rcases ih _ _ _ _ h with hlast | ⟨hnone, hcase⟩
          · left; simp [traceLastErr, hlast]
          · right
            exact ⟨by simp [traceLastErr, hnone], hcase⟩

/-- When the fan-out fails, none of the successfully queried windows
contained the identifier. -/
theorem byIdLoop_err_nomatch (env : FetchEnv) (now : Int) (id : String) :
    ∀ (order : List Past) (tick : Nat) (cs : CacheState) (lastErr : Option Err)
      (err : Err),
      (cacheGetByIdLoop env now id tick cs lastErr order).res = .error err →
      ∀ q ∈ (cacheGetByIdLoop env now id tick cs lastErr order).trace,
        ∀ col, q.2 = Except.ok col →
          col.features.find? (fun r => r.id == id) = none := by
  intro order
  induction order with
  | nil =>
    intro tick cs lastErr err _ q hq
    simp [cacheGetByIdLoop] at hq
  | cons past rest ih =>
    intro tick cs lastErr err h q hq col hcol
    simp only [cacheGetByIdLoop] at h hq
    by_cases hp : past = Past_PAST_UNSPECIFIED
    · rw [if_pos hp] at h hq
      exact ih _ _ _ _ h q hq col hcol
    · rw [if_neg hp] at h hq
      generalize hr : (cacheGetList env now tick Magnitude_MAGNITUDE_ALL past cs).res = rres at h hq
      cases rres with
      | error err0 =>
        dsimp only [] at h hq
        rcases List.mem_cons.mp hq with hh | hh
        · subst hh
          exact absurd hcol (by simp)
        · exact ih _ _ _ _ h q hh col hcol
      | ok col0 =>
        dsimp only [] at h hq
        generalize hf : List.find? (fun eq => eq.id == id) col0.features = fres at h hq
        cases fres with
        | some eq0 =>
          dsimp only [] at h
          exact absurd h (by simp)
        | none =>
          dsimp only [] at h hq
          rcases List.mem_cons.mp hq with hh | hh
          · subst hh
            have hcc : col0 = col := by simpa using hcol
            rw [← hcc]; exact hf
          · exact ih _ _ _ _ h q hh col hcol

/-! ## Further helper lemmas -/

/-- Every TTL in the table is positive. -/
theorem resolveMaxAge_pos (m : Magnitude) (p : Past) : 0 < resolveMaxAge m p := by
  unfold resolveMaxAge
  split_ifs <;> decide

/-- The discard step can keep a collection only if it was present and not
yet expired. -/
theorem discardIfExpired_col_some (e : Entry) (now : Int) (c : EarthquakeCollection)
    (h : (discardIfExpired e now).col = some c) :
    e.col = some c ∧ ¬ e.expires < now := by
  cases he : e.col with
  | none =>
    rw [discardIfExpired_none e now he, he] at h
    exact absurd h (by simp)
  | some c0 =>
    by_cases hexp : e.expires < now
    · rw [discardIfExpired_expired e now c0 he hexp] at h
      exact absurd h (by simp)
    · rw [discardIfExpired_fresh e now c0 he hexp] at h
      rw [he] at h
      cases h
      exact ⟨rfl, hexp⟩

/-- Running the retry loop against an upstream that fails every attempt in
the window performs exactly the remaining budget of fetches (provided the
breaker cannot trip mid-loop) and, if at least one round runs, returns
the error of the last attempt. -/
theorem fetchLoop_allFail (env : FetchEnv) (now : Int) (tick : Nat)
    (m : Magnitude) (p : Past) (key : String) (cs : CacheState) :
    ∀ (remaining : Nat) (e : Entry) (fetched : Nat),
      (∀ i, fetched ≤ i → i < fetched + remaining →
        ∃ err, attemptOnce env m p (tick + i) = Except.error err) →
      e.errCountSinceReset + remaining ≤ maxErrorsTotal →
      (fetchLoop env now tick m p key cs e fetched remaining).fetches = fetched + remaining ∧
      ∀ err, 0 < remaining →
        attemptOnce env m p (tick + (fetched + remaining - 1)) = Except.error err →
        (fetchLoop env now tick m p key cs e fetched remaining).res = Except.error err := by
  intro remaining
  induction remaining with
  | zero =>
    intro e fetched _ _
    refine ⟨by simp [fetchLoop, loopExit], ?_⟩
    intro err habs _
    exact absurd habs (by omega)
  | succ r ih =>
    intro e fetched hfail hbound
    have hc : e.errCountSinceReset < maxErrorsTotal := by omega
    obtain ⟨err0, hA⟩ := hfail fetched (le_refl _) (by omega)
    simp only [fetchLoop]
    rw [if_pos hc, hA]
    dsimp only []
    cases r with
    | zero =>
      refine ⟨by simp [fetchLoop, loopExit], ?_⟩
      intro err _ herr
      have hidx : fetched + (0 + 1) - 1 = fetched := by omega
      rw [hidx, hA] at herr
      cases herr
      simp [fetchLoop, loopExit]
    | succ r' =>
      have hfail' : ∀ i, fetched + 1 ≤ i → i < (fetched + 1) + (r' + 1) →
          ∃ err, attemptOnce env m p (tick + i) = Except.error err := by
        intro i hi1 hi2
        exact hfail i (by omega) (by omega)
      obtain ⟨ih1, ih2⟩ := ih
        { e with errCountSinceReset := e.errCountSinceReset + 1
               , lastErr := some err0, lastErrTime := now }
        (fetched + 1) hfail' (by dsimp only []; omega)
      refine ⟨by rw [ih1]; omega, ?_⟩
      intro err hpos herr
      have hidx : fetched + (r' + 1 + 1) - 1 = (fetched + 1) + (r' + 1) - 1 := by omega
      rw [hidx] at herr
      exact ih2 err (by omega) herr

/-- Any successful `cacheGetList` leaves the entry holding the returned
collection, unexpired at the call instant, with the snapshot mirrored. -/
theorem cacheGetList_ok_post (env : FetchEnv) (now : Int) (tick : Nat)
    (m : Magnitude) (p : Past) (cs : CacheState) (c : EarthquakeCollection)
    (h : (cacheGetList env now tick m p cs).res = .ok c) :
    ∃ e', (cacheGetList env now tick m p cs).state.entries (resolveCacheKey m p) = some e' ∧
      e'.col = some c ∧ ¬ e'.expires < now ∧
      (cacheGetList env now tick m p cs).state.statCopies (resolveCacheKey m p)
        = some e'.stat := by
  cases hE : cs.entries (resolveCacheKey m p) with
  | none =>
    rw [cacheGetList_noEntry env now tick m p cs hE] at h
    exact absurd h (by simp)
  | some e =>
    cases hcol : (discardIfExpired e now).col with
    | some c0 =>
      obtain ⟨hecol, hexp⟩ := discardIfExpired_col_some e now c0 hcol
      rw [cacheGetList_hit env now tick m p cs e c0 hE hecol hexp] at h ⊢
      dsimp only [] at h
      cases h
      refine ⟨{ e with hitCount := e.hitCount + 1 }, ?_, hecol, hexp, ?_⟩
      · simp [cacheSetStat, CacheState.setEntry]
      · simp [cacheSetStat, CacheState.setEntry, Entry.stat]
    | none =>
      rw [cacheGetList_miss env now tick m p cs e hE hcol] at h ⊢
      obtain ⟨j, e', _, _, _, _, hent, hcol', hexp, _, _, _, _, hstat⟩ :=
        fetchLoop_ok env now tick m p (resolveCacheKey m p) cs maxTriesForRequest
          (breakerReset (discardIfExpired e now) now) 0 c h
      refine ⟨e', hent, hcol', ?_, hstat⟩
      rw [hexp]
      have := resolveMaxAge_pos m p
      omega

/-! ## Claim theorems

Each claim of the specification gets one theorem below (with a witness
when it carries hypotheses, and a counterexample when the claim as stated
fails on the code). -/

/-- C7: for every dimension pair whose resolved key is absent from the
entry store, `cacheGetList` returns `ErrCacheFailure` without calling
fetch and without modifying any entry or the statistics mirror. -/
theorem C7_unknown_key (env : FetchEnv) (now : Int) (tick : Nat)
    (m : Magnitude) (p : Past) (cs : CacheState)
    (h : cs.entries (resolveCacheKey m p) = none) :
    (cacheGetList env now tick m p cs).res = .error .cacheFailure ∧
    (cacheGetList env now tick m p cs).fetches = 0 ∧
    (cacheGetList env now tick m p cs).state = cs := by
  rw [cacheGetList_noEntry env now tick m p cs h]
  exact ⟨rfl, rfl, rfl⟩

/-- Witness for C7 at the concrete out-of-domain pair (42, PAST_HOUR),
whose key "42@PAST_HOUR" is absent from the initialized entry store. -/
theorem C7_unknown_key_witness :
    (cacheGetList envOK 0 0 42 Past_PAST_HOUR initState).res = .error .cacheFailure ∧
    (cacheGetList envOK 0 0 42 Past_PAST_HOUR initState).fetches = 0 ∧
    (cacheGetList envOK 0 0 42 Past_PAST_HOUR initState).state = initState :=
  C7_unknown_key envOK 0 0 42 Past_PAST_HOUR initState (by decide)

/-- C2: for a key whose entry is fully healthy (zero consecutive errors,
no cached collection), if every fetch attempt fails then one
`cacheGetList` call performs exactly `maxTriesForRequest` fetch attempts
and returns the error of the last failed attempt. -/
theorem C2_retry_bound (env : FetchEnv) (now : Int) (tick : Nat)
    (m : Magnitude) (p : Past) (cs : CacheState) (e : Entry)
    (hE : cs.entries (resolveCacheKey m p) = some e)
    (hcol : e.col = none) (herr : e.errCountSinceReset = 0)
    (hfail : ∀ i, i < maxTriesForRequest →
      ∃ err, attemptOnce env m p (tick + i) = Except.error err) :
    (cacheGetList env now tick m p cs).fetches = maxTriesForRequest ∧
    ∀ err, attemptOnce env m p (tick + (maxTriesForRequest - 1)) = Except.error err →
      (cacheGetList env now tick m p cs).res = Except.error err := by
  have hdis : discardIfExpired e now = e := discardIfExpired_none e now hcol
  have hmiss := cacheGetList_miss env now tick m p cs e hE (by rw [hdis]; exact hcol)
  rw [hdis, breakerReset_healthy e now (by rw [herr]; decide)] at hmiss
  obtain ⟨h1, h2⟩ := fetchLoop_allFail env now tick m p (resolveCacheKey m p) cs
    maxTriesForRequest e 0
    (fun i _ hi2 => hfail i (by omega))
    (by rw [herr]; decide)
  rw [hmiss]
  refine ⟨by rw [h1]; omega, ?_⟩
  intro err herr2
  have hidx : 0 + maxTriesForRequest - 1 = maxTriesForRequest - 1 := by omega
  rw [hidx] at h2
  exact h2 err (by decide) herr2

/-- Witness for C2: a cold healthy key against an always-failing upstream
makes exactly three attempts and reports the third attempt's error. -/
theorem C2_retry_bound_witness :
    (cacheGetList envAllFail 0 0 Magnitude_MAGNITUDE_ALL Past_PAST_HOUR initState).fetches
      = maxTriesForRequest ∧
    (cacheGetList envAllFail 0 0 Magnitude_MAGNITUDE_ALL Past_PAST_HOUR initState).res
      = Except.error (Err.fetchFail "2") := by
  obtain ⟨h1, h2⟩ := C2_retry_bound envAllFail 0 0 Magnitude_MAGNITUDE_ALL Past_PAST_HOUR
    initState emptyEntry (by decide) rfl rfl
    (fun i _ => ⟨Err.fetchFail (toString (0 + i)), rfl⟩)
  exact ⟨h1, h2 (Err.fetchFail "2") (by decide)⟩

/-- C6: the TTL applied on a successful fetch is a pure lookup on the
window dimension only, equal to the spec's table, independent of the
magnitude dimension; on a fetched success the entry expires at `now`
plus that TTL. -/
theorem C6_ttl_policy :
    (∀ m p, resolveMaxAge m p = ttlSpec p) ∧
    (∀ m m2 p, resolveMaxAge m p = resolveMaxAge m2 p) ∧
    (∀ (env : FetchEnv) (now : Int) (tick : Nat) (m : Magnitude) (p : Past)
       (cs : CacheState) (c : EarthquakeCollection),
      (cacheGetList env now tick m p cs).res = .ok c →
      1 ≤ (cacheGetList env now tick m p cs).fetches →
      ∃ e', (cacheGetList env now tick m p cs).state.entries (resolveCacheKey m p) = some e' ∧
        e'.expires = now + resolveMaxAge m p) := by
  refine ⟨fun m p => rfl, fun m m2 p => rfl, ?_⟩
  intro env now tick m p cs c hok hfet
  cases hE : cs.entries (resolveCacheKey m p) with
  | none =>
    rw [cacheGetList_noEntry env now tick m p cs hE] at hok
    exact absurd hok (by simp)
  | some e =>
    cases hcol : (discardIfExpired e now).col with
    | some c0 =>
      obtain ⟨hecol, hexp⟩ := discardIfExpired_col_some e now c0 hcol
      rw [cacheGetList_hit env now tick m p cs e c0 hE hecol hexp] at hfet
      exact absurd hfet (by simp)
    | none =>
      rw [cacheGetList_miss env now tick m p cs e hE hcol] at hok ⊢
      obtain ⟨j, e', _, _, _, _, hent, _, hexp, _, _, _, _, _⟩ :=
        fetchLoop_ok env now tick m p (resolveCacheKey m p) cs maxTriesForRequest
          (breakerReset (discardIfExpired e now) now) 0 c hok
      exact ⟨e', hent, hexp⟩

/-- Witness for C6 at the hour window: table agreement and a concrete
successful fetch at time 0 expiring at the hour-window TTL. -/
theorem C6_ttl_policy_witness :
    resolveMaxAge Magnitude_MAGNITUDE_ALL Past_PAST_HOUR = ttlSpec Past_PAST_HOUR ∧
    resolveMaxAge Magnitude_MAGNITUDE_SIGNIFICANT Past_PAST_HOUR
      = resolveMaxAge Magnitude_MAGNITUDE_ALL Past_PAST_HOUR ∧
    ∃ e', (cacheGetList envOK 0 0 Magnitude_MAGNITUDE_ALL Past_PAST_HOUR initState).state.entries
        (resolveCacheKey Magnitude_MAGNITUDE_ALL Past_PAST_HOUR) = some e' ∧
      e'.expires = 0 + resolveMaxAge Magnitude_MAGNITUDE_ALL Past_PAST_HOUR :=
  ⟨C6_ttl_policy.1 _ _, C6_ttl_policy.2.1 _ _ _,
   C6_ttl_policy.2.2 envOK 0 0 Magnitude_MAGNITUDE_ALL Past_PAST_HOUR initState col0
     (by decide) (by decide)⟩

/-- C5: the statistics mirror is written only by a cache hit or a
successful fetch (never by a failed call), right after such an event it
equals the entry's own counters, `cacheGetStat` of a never-served key is
the zero value, and one fetch followed by one hit yields counters 1/1. -/
theorem C5_stats_mirror :
    (∀ (env : FetchEnv) (now : Int) (tick : Nat) (m : Magnitude) (p : Past)
       (cs : CacheState) (err : Err),
      (cacheGetList env now tick m p cs).res = .error err →
      (cacheGetList env now tick m p cs).state.statCopies = cs.statCopies) ∧
    (∀ (env : FetchEnv) (now : Int) (tick : Nat) (m : Magnitude) (p : Past)
       (cs : CacheState) (c : EarthquakeCollection),
      (cacheGetList env now tick m p cs).res = .ok c →
      ∃ e', (cacheGetList env now tick m p cs).state.entries (resolveCacheKey m p) = some e' ∧
        (cacheGetList env now tick m p cs).state.statCopies (resolveCacheKey m p)
          = some e'.stat) ∧
    (∀ m p, cacheGetStat m p initState = { fetchCount := 0, hitCount := 0 }) ∧
    cacheGetStat Magnitude_MAGNITUDE_ALL Past_PAST_HOUR
      (cacheGetList envOK 0 1 Magnitude_MAGNITUDE_ALL Past_PAST_HOUR
        (cacheGetList envOK 0 0 Magnitude_MAGNITUDE_ALL Past_PAST_HOUR initState).state).state
      = { fetchCount := 1, hitCount := 1 } := by
  refine ⟨?_, ?_, fun m p => rfl, by decide⟩
  · intro env now tick m p cs err h
    cases hE : cs.entries (resolveCacheKey m p) with
    | none => rw [cacheGetList_noEntry env now tick m p cs hE]
    | some e =>
      cases hcol : (discardIfExpired e now).col with
      | some c0 =>
        obtain ⟨hecol, hexp⟩ := discardIfExpired_col_some e now c0 hcol
        rw [cacheGetList_hit env now tick m p cs e c0 hE hecol hexp] at h
        exact absurd h (by simp)
      | none =>
        rw [cacheGetList_miss env now tick m p cs e hE hcol] at h ⊢
        exact fetchLoop_err_statCopies env now tick m p (resolveCacheKey m p) cs
          maxTriesForRequest _ 0 err h
  · intro env now tick m p cs c h
    obtain ⟨e', hent, _, _, hstat⟩ := cacheGetList_ok_post env now tick m p cs c h
    exact ⟨e', hent, hstat⟩

/-- Witness for C5: a failing call leaves the mirror untouched, and an
unqueried key reads as zero. -/
theorem C5_stats_mirror_witness :
    (cacheGetList envAllFail 0 0 Magnitude_MAGNITUDE_ALL Past_PAST_HOUR initState).state.statCopies
      = initState.statCopies ∧
    cacheGetStat Magnitude_MAGNITUDE_ALL Past_PAST_HOUR initState
      = { fetchCount := 0, hitCount := 0 } :=
  ⟨C5_stats_mirror.1 envAllFail 0 0 Magnitude_MAGNITUDE_ALL Past_PAST_HOUR initState
     (Err.fetchFail "2") (by decide),
   C5_stats_mirror.2.2.1 Magnitude_MAGNITUDE_ALL Past_PAST_HOUR⟩

/-- The entry holding the hour-window collection stored by a successful
fetch at time 0 (TTL 3 minutes), used by the C3 and C10 runs. -/
def c3entry : Entry :=
  { col := some col0, expires := 180000000000, errCountSinceReset := 0
  , lastErrTime := 0, lastErr := none, fetchCount := 1, hitCount := 0 }

/-- C3 (amended): a cached collection is served as a hit, with no fetch
attempt, exactly when `now ≤ expiresAt` (After is strict); at any
strictly later instant the collection is discarded before any other
logic and a fetch is triggered. -/
theorem C3_ttl_amended (env : FetchEnv) (now : Int) (tick : Nat)
    (m : Magnitude) (p : Past) (cs : CacheState) (e : Entry) (c : EarthquakeCollection)
    (hE : cs.entries (resolveCacheKey m p) = some e)
    (hcol : e.col = some c) (hhealthy : e.errCountSinceReset = 0) :
    (¬ e.expires < now →
      (cacheGetList env now tick m p cs).res = .ok c ∧
      (cacheGetList env now tick m p cs).fetches = 0) ∧
    (e.expires < now →
      cacheGetList env now tick m p cs
        = fetchLoop env now tick m p (resolveCacheKey m p) cs
            { e with col := none } 0 maxTriesForRequest ∧
      1 ≤ (cacheGetList env now tick m p cs).fetches) := by
  constructor
  · intro hexp
    rw [cacheGetList_hit env now tick m p cs e c hE hcol hexp]
    exact ⟨rfl, rfl⟩
  · intro hexp
    have hdis := discardIfExpired_expired e now c hcol hexp
    have hmiss := cacheGetList_miss env now tick m p cs e hE (by rw [hdis])
    rw [hdis, breakerReset_healthy _ now (by dsimp only []; rw [hhealthy]; decide)] at hmiss
    refine ⟨hmiss, ?_⟩
    rw [hmiss]
    have hs := fetchLoop_step_fetches env now tick m p (resolveCacheKey m p) cs
      (maxTriesForRequest - 1) { e with col := none } 0
      (by dsimp only []; rw [hhealthy]; decide)
    have h31 : maxTriesForRequest - 1 + 1 = maxTriesForRequest := by decide
    rw [h31] at hs
    simpa using hs

/-- C3 counterexample: after a successful fetch at T = 0 for the hour
window (TTL D = 3 minutes), a call at exactly now = T + D returns the
cached collection as a hit with zero fetch attempts, where the claim
demands the entry be treated as absent and a fetch be triggered
(`After` is strict, so expiry happens only strictly after T + D). -/
theorem C3_ttl_counterexample :
    (cacheGetList envOK 180000000000 1 Magnitude_MAGNITUDE_ALL Past_PAST_HOUR
      (cacheGetList envOK 0 0 Magnitude_MAGNITUDE_ALL Past_PAST_HOUR initState).state).res
      = .ok col0 ∧
    ¬ 1 ≤ (cacheGetList envOK 180000000000 1 Magnitude_MAGNITUDE_ALL Past_PAST_HOUR
      (cacheGetList envOK 0 0 Magnitude_MAGNITUDE_ALL Past_PAST_HOUR initState).state).fetches := by
  exact ⟨by decide, by decide⟩

/-- Witness for the amended C3: at now = T + D the cached collection is
still served with no fetch; at now = T + D + 1ns a fetch is triggered. -/
theorem C3_ttl_amended_witness :
    (cacheGetList envOK 180000000000 1 Magnitude_MAGNITUDE_ALL Past_PAST_HOUR
      (cacheGetList envOK 0 0 Magnitude_MAGNITUDE_ALL Past_PAST_HOUR initState).state).res
      = .ok col0 ∧
    1 ≤ (cacheGetList envOK 180000000001 1 Magnitude_MAGNITUDE_ALL Past_PAST_HOUR
      (cacheGetList envOK 0 0 Magnitude_MAGNITUDE_ALL Past_PAST_HOUR initState).state).fetches := by
  have h := C3_ttl_amended envOK 180000000000 1 Magnitude_MAGNITUDE_ALL Past_PAST_HOUR
    (cacheGetList envOK 0 0 Magnitude_MAGNITUDE_ALL Past_PAST_HOUR initState).state
    c3entry col0 (by decide) rfl rfl
  have h2 := C3_ttl_amended envOK 180000000001 1 Magnitude_MAGNITUDE_ALL Past_PAST_HOUR
    (cacheGetList envOK 0 0 Magnitude_MAGNITUDE_ALL Past_PAST_HOUR initState).state
    c3entry col0 (by decide) rfl rfl
  exact ⟨(h.1 (by decide)).1, (h2.2 (by decide)).2⟩

/-- The package state after ten consecutive fetch failures (four
all-failing calls: 3 + 3 + 3 + 1 attempts) for the hour window at time 0:
the breaker is tripped with the tenth attempt's error remembered. -/
def c1state : CacheState :=
  (cacheGetList envAllFail 0 9 Magnitude_MAGNITUDE_ALL Past_PAST_HOUR
    (cacheGetList envAllFail 0 6 Magnitude_MAGNITUDE_ALL Past_PAST_HOUR
      (cacheGetList envAllFail 0 3 Magnitude_MAGNITUDE_ALL Past_PAST_HOUR
        (cacheGetList envAllFail 0 0 Magnitude_MAGNITUDE_ALL Past_PAST_HOUR initState).state).state).state).state

/-- The tripped hour-window entry held in `c1state`. -/
def c1entry : Entry :=
  { col := none, expires := 0, errCountSinceReset := 10, lastErrTime := 0
  , lastErr := some (Err.fetchFail "9"), fetchCount := 0, hitCount := 0 }

/-- C1 (amended): while the breaker is tripped and
`now ≤ lastErrorAt + waitBeforeReset` (After is strict), `cacheGetList`
returns the remembered last error with zero fetch attempts and touches
neither the entry nor the statistics mirror; at the first call with
`now > lastErrorAt + waitBeforeReset` the counter is reset to 0, the
last error is cleared, and a fresh fetch attempt proceeds in that same
call. -/
theorem C1_breaker_amended (env : FetchEnv) (now : Int) (tick : Nat)
    (m : Magnitude) (p : Past) (cs : CacheState) (e : Entry) (err : Err)
    (hE : cs.entries (resolveCacheKey m p) = some e)
    (hcol : e.col = none)
    (htrip : maxErrorsTotal ≤ e.errCountSinceReset)
    (herr : e.lastErr = some err) :
    (¬ e.lastErrTime + waitBeforeReset < now →
      (cacheGetList env now tick m p cs).res = .error err ∧
      (cacheGetList env now tick m p cs).fetches = 0 ∧
      (cacheGetList env now tick m p cs).state.entries (resolveCacheKey m p) = some e ∧
      (cacheGetList env now tick m p cs).state.statCopies = cs.statCopies) ∧
    (e.lastErrTime + waitBeforeReset < now →
      cacheGetList env now tick m p cs
        = fetchLoop env now tick m p (resolveCacheKey m p) cs
            { e with errCountSinceReset := 0, lastErr := none } 0 maxTriesForRequest ∧
      1 ≤ (cacheGetList env now tick m p cs).fetches) := by
  have hdis := discardIfExpired_none e now hcol
  have hmiss := cacheGetList_miss env now tick m p cs e hE (by rw [hdis]; exact hcol)
  rw [hdis] at hmiss
  constructor
  · intro hcool
    rw [breakerReset_cooling e now hcool,
      fetchLoop_tripped env now tick m p (resolveCacheKey m p) cs maxTriesForRequest e 0 htrip]
      at hmiss
    rw [hmiss]
    refine ⟨by simp [loopExit, herr], rfl, ?_, rfl⟩
    simp [loopExit, CacheState.setEntry]
  · intro hel
    rw [breakerReset_elapsed e now htrip hel] at hmiss
    refine ⟨hmiss, ?_⟩
    rw [hmiss]
    have hs := fetchLoop_step_fetches env now tick m p (resolveCacheKey m p) cs
      (maxTriesForRequest - 1) { e with errCountSinceReset := 0, lastErr := none } 0
      (by dsimp only []; decide)
    have h31 : maxTriesForRequest - 1 + 1 = maxTriesForRequest := by decide
    rw [h31] at hs
    simpa using hs

/-- C1 counterexample: with the breaker tripped at time 0, a call at
exactly now = lastErrorAt + waitBeforeReset — a time satisfying the
claim's reset condition `now ≥ lastErrorAt + waitBeforeReset` — neither
makes a fetch attempt nor resets the error counter; `After` is strict,
so this call still returns the stored error. -/
theorem C1_breaker_counterexample :
    ¬ (1 ≤ (cacheGetList envOK 3600000000000 12 Magnitude_MAGNITUDE_ALL Past_PAST_HOUR c1state).fetches ∧
       ((cacheGetList envOK 3600000000000 12 Magnitude_MAGNITUDE_ALL Past_PAST_HOUR c1state).state.entries
          (resolveCacheKey Magnitude_MAGNITUDE_ALL Past_PAST_HOUR)).map Entry.errCountSinceReset
         = some 0) := by
  decide

/-- Witness for the amended C1: at exactly the cooldown boundary the
stored error comes back with zero fetches; one nanosecond later a fresh
fetch attempt proceeds. -/
theorem C1_breaker_amended_witness :
    (cacheGetList envOK 3600000000000 12 Magnitude_MAGNITUDE_ALL Past_PAST_HOUR c1state).res
      = .error (Err.fetchFail "9") ∧
    (cacheGetList envOK 3600000000000 12 Magnitude_MAGNITUDE_ALL Past_PAST_HOUR c1state).fetches = 0 ∧
    1 ≤ (cacheGetList envOK 3600000000001 12 Magnitude_MAGNITUDE_ALL Past_PAST_HOUR c1state).fetches := by
  have h := C1_breaker_amended envOK 3600000000000 12 Magnitude_MAGNITUDE_ALL Past_PAST_HOUR
    c1state c1entry (Err.fetchFail "9") (by decide) rfl (by decide) rfl
  have h2 := C1_breaker_amended envOK 3600000000001 12 Magnitude_MAGNITUDE_ALL Past_PAST_HOUR
    c1state c1entry (Err.fetchFail "9") (by decide) rfl (by decide) rfl
  obtain ⟨ha, hb, _, _⟩ := h.1 (by decide)
  exact ⟨ha, hb, (h2.2 (by decide)).2⟩

/-- C9 (amended): under the per-key serialization the entry mutex
enforces (concurrent calls modelled as sequential composition), each
single `cacheGetList` call makes at most `maxTriesForRequest` fetch
attempts, and once a call succeeds, a subsequent call at the same
instant is a pure cache hit with zero fetch attempts — so N serialized
calls on a cold key make at most `maxTriesForRequest` fetches in total
whenever the first call succeeds, but not in general. -/
theorem C9_single_flight_amended :
    (∀ (env : FetchEnv) (now : Int) (tick : Nat) (m : Magnitude) (p : Past)
       (cs : CacheState),
      (cacheGetList env now tick m p cs).fetches ≤ maxTriesForRequest) ∧
    (∀ (env : FetchEnv) (now : Int) (tick tick2 : Nat) (m : Magnitude) (p : Past)
       (cs : CacheState) (c : EarthquakeCollection),
      (cacheGetList env now tick m p cs).res = .ok c →
      (cacheGetList env now tick2 m p (cacheGetList env now tick m p cs).state).res = .ok c ∧
      (cacheGetList env now tick2 m p (cacheGetList env now tick m p cs).state).fetches = 0) := by
  constructor
  · intro env now tick m p cs
    cases hE : cs.entries (resolveCacheKey m p) with
    | none => rw [cacheGetList_noEntry env now tick m p cs hE]; dsimp only []; decide
    | some e =>
      cases hcol : (discardIfExpired e now).col with
      | some c0 =>
        obtain ⟨hecol, hexp⟩ := discardIfExpired_col_some e now c0 hcol
        rw [cacheGetList_hit env now tick m p cs e c0 hE hecol hexp]
        dsimp only []
        decide
      | none =>
        rw [cacheGetList_miss env now tick m p cs e hE hcol]
        have hle := fetchLoop_fetches_le env now tick m p (resolveCacheKey m p) cs
          maxTriesForRequest (breakerReset (discardIfExpired e now) now) 0
        simpa using hle
  · intro env now tick tick2 m p cs c hok
    obtain ⟨e', hent, hcol', hexp, _⟩ := cacheGetList_ok_post env now tick m p cs c hok
    rw [cacheGetList_hit env now tick2 m p _ e' c hent hcol' hexp]
    exact ⟨rfl, rfl⟩

/-- C9 counterexample: two serialized calls on a cold key against an
always-failing upstream make 3 + 3 = 6 fetch attempts in total,
exceeding the claimed total bound of `maxTriesForRequest` for N
concurrent calls. -/
theorem C9_single_flight_counterexample :
    ¬ ((cacheGetList envAllFail 0 0 Magnitude_MAGNITUDE_ALL Past_PAST_HOUR initState).fetches +
       (cacheGetList envAllFail 0 3 Magnitude_MAGNITUDE_ALL Past_PAST_HOUR
         (cacheGetList envAllFail 0 0 Magnitude_MAGNITUDE_ALL Past_PAST_HOUR initState).state).fetches
       ≤ maxTriesForRequest) := by
  decide

/-- Witness for the amended C9: a concrete first call succeeds within
budget and the serialized second call is a zero-fetch hit. -/
theorem C9_single_flight_amended_witness :
    (cacheGetList envOK 0 0 Magnitude_MAGNITUDE_ALL Past_PAST_HOUR initState).fetches
      ≤ maxTriesForRequest ∧
    (cacheGetList envOK 0 1 Magnitude_MAGNITUDE_ALL Past_PAST_HOUR
      (cacheGetList envOK 0 0 Magnitude_MAGNITUDE_ALL Past_PAST_HOUR initState).state).res
      = .ok col0 ∧
    (cacheGetList envOK 0 1 Magnitude_MAGNITUDE_ALL Past_PAST_HOUR
      (cacheGetList envOK 0 0 Magnitude_MAGNITUDE_ALL Past_PAST_HOUR initState).state).fetches
      = 0 := by
  obtain ⟨ha, hb⟩ := C9_single_flight_amended.2 envOK 0 0 1 Magnitude_MAGNITUDE_ALL
    Past_PAST_HOUR initState col0 (by decide)
  exact ⟨C9_single_flight_amended.1 envOK 0 0 Magnitude_MAGNITUDE_ALL Past_PAST_HOUR initState,
    ha, hb⟩

/-- C10: discarding an expired collection changes only the collection
field — expiry, error counter, error time, last error and both counters
are untouched, so a tripped breaker stays tripped across expiry — and
after such a discard the stale collection is never served: any collection
the call returns was produced by one of this call's fetch attempts. -/
theorem C10_expiry_frame :
    (∀ (e : Entry) (now : Int),
      (discardIfExpired e now).expires = e.expires ∧
      (discardIfExpired e now).errCountSinceReset = e.errCountSinceReset ∧
      (discardIfExpired e now).lastErrTime = e.lastErrTime ∧
      (discardIfExpired e now).lastErr = e.lastErr ∧
      (discardIfExpired e now).fetchCount = e.fetchCount ∧
      (discardIfExpired e now).hitCount = e.hitCount ∧
      (maxErrorsTotal ≤ e.errCountSinceReset →
        maxErrorsTotal ≤ (discardIfExpired e now).errCountSinceReset) ∧
      (e.expires < now → (discardIfExpired e now).col = none)) ∧
    (∀ (env : FetchEnv) (now : Int) (tick : Nat) (m : Magnitude) (p : Past)
       (cs : CacheState) (e : Entry) (c c2 : EarthquakeCollection),
      cs.entries (resolveCacheKey m p) = some e →
      e.col = some c → e.expires < now →
      (cacheGetList env now tick m p cs).res = .ok c2 →
      ∃ j, j < maxTriesForRequest ∧ attemptOnce env m p (tick + j) = .ok c2) := by
  constructor
  · intro e now
    obtain ⟨h1, h2, h3, h4, h5, h6⟩ := discardIfExpired_frame e now
    refine ⟨h1, h2, h3, h4, h5, h6, by rw [h2]; exact fun h => h, ?_⟩
    intro hexp
    cases he : e.col with
    | none => rw [discardIfExpired_none e now he]; exact he
    | some c0 => rw [discardIfExpired_expired e now c0 he hexp]
  · intro env now tick m p cs e c c2 hE hcol hexp hok
    have hdis := discardIfExpired_expired e now c hcol hexp
    have hmiss := cacheGetList_miss env now tick m p cs e hE (by rw [hdis])
    rw [hmiss] at hok
    obtain ⟨j, e', hj1, hj2, hatt, _, _, _, _, _, _, _, _, _⟩ :=
      fetchLoop_ok env now tick m p (resolveCacheKey m p) cs maxTriesForRequest
        (breakerReset (discardIfExpired e now) now) 0 c2 hok
    exact ⟨j, by omega, hatt⟩

/-- Witness for C10: the frame equalities on a concrete expired entry,
and the refetched collection of a concrete post-expiry call traced back
to this call's fetch attempt. -/
theorem C10_expiry_frame_witness :
    (discardIfExpired c3entry 200000000000).errCountSinceReset = c3entry.errCountSinceReset ∧
    (discardIfExpired c3entry 200000000000).col = none ∧
    ∃ j, j < maxTriesForRequest ∧
      attemptOnce envOK Magnitude_MAGNITUDE_ALL Past_PAST_HOUR (1 + j) = .ok col0 := by
  obtain ⟨hfr, hsteal⟩ := C10_expiry_frame
  obtain ⟨_, hcnt, _, _, _, _, _, hdrop⟩ := hfr c3entry 200000000000
  refine ⟨hcnt, hdrop (by decide), ?_⟩
  exact hsteal envOK 200000000000 1 Magnitude_MAGNITUDE_ALL Past_PAST_HOUR
    (cacheGetList envOK 0 0 Magnitude_MAGNITUDE_ALL Past_PAST_HOUR initState).state
    c3entry col0 col0 (by decide) rfl (by decide) (by decide)

/-- C4: the fan-out queries windows at the broadest magnitude only and
skips the unspecified sentinel; a success returns, immediately, a record
with the requested identifier found in the last queried window, no
earlier successful window containing it; a failure returns the most
recently observed window error if any window failed, and `ErrNotFound`
when every queried window succeeded without a match. -/
theorem C4_by_id_fanout (env : FetchEnv) (now : Int) (tick : Nat)
    (order : List Past) (id : String) (cs : CacheState) :
    (∀ q ∈ (cacheGetById env now tick order id cs).trace,
      q.1.1 = Magnitude_MAGNITUDE_ALL ∧ q.1.2 ≠ Past_PAST_UNSPECIFIED) ∧
    (∀ eq, (cacheGetById env now tick order id cs).res = .ok eq →
      eq.id = id ∧
      ∃ pre w col,
        (cacheGetById env now tick order id cs).trace = pre ++ [(w, Except.ok col)] ∧
        col.features.find? (fun r => r.id == id) = some eq ∧
        ∀ w2 col2, (w2, Except.ok col2) ∈ pre →
          col2.features.find? (fun r => r.id == id) = none) ∧
    (∀ err, (cacheGetById env now tick order id cs).res = .error err →
      (traceLastErr (cacheGetById env now tick order id cs).trace = some err ∨
        (traceLastErr (cacheGetById env now tick order id cs).trace = none ∧
          err = .notFound)) ∧
      ∀ q ∈ (cacheGetById env now tick order id cs).trace, ∀ col, q.2 = Except.ok col →
        col.features.find? (fun r => r.id == id) = none) := by
  refine ⟨byIdLoop_trace_mem env now id order tick cs none, ?_, ?_⟩
  · intro eq h
    exact byIdLoop_ok env now id order tick cs none eq h
  · intro err h
    constructor
    · rcases byIdLoop_err_last env now id order tick cs none err h with h1 | ⟨h1, h2⟩
      · exact Or.inl h1
      · rcases h2 with h2 | ⟨_, h3⟩
        · exact absurd h2 (by simp)
        · exact Or.inr ⟨h1, h3⟩
    · exact byIdLoop_err_nomatch env now id order tick cs none err h

/-- Witness for C4: a concrete fan-out over the hour window alone finds
the record with the requested identifier in the fetched collection. -/
theorem C4_by_id_fanout_witness :
    ({ id := "eq1" } : Earthquake).id = "eq1" ∧
    ∃ pre w col,
      (cacheGetById envOK 0 0 [1] "eq1" initState).trace = pre ++ [(w, Except.ok col)] ∧
      col.features.find? (fun r => r.id == "eq1") = some { id := "eq1" } ∧
      ∀ w2 col2, (w2, Except.ok col2) ∈ pre →
        col2.features.find? (fun r => r.id == "eq1") = none :=
  (C4_by_id_fanout envOK 0 0 [1] "eq1" initState).2.1 { id := "eq1" } (by decide)

/-- C8 (amended): for a given run the windows queried by `cacheGetById`
follow that run's iteration order of the `Past_value` map — they are an
initial segment of the order with the sentinel removed — but the order
itself is a Go map iteration order, not fixed across runs, so the
narrowest-first enumeration and the cross-run determinism asserted by
the claim do not hold. -/
theorem C8_window_order_amended (env : FetchEnv) (now : Int) (tick : Nat)
    (order : List Past) (id : String) (cs : CacheState) :
    (∃ t, order.filter (fun p => p != Past_PAST_UNSPECIFIED)
      = (cacheGetById env now tick order id cs).trace.map (fun q => q.1.2) ++ t) ∧
    ∀ q ∈ (cacheGetById env now tick order id cs).trace,
      q.1.2 ≠ Past_PAST_UNSPECIFIED := by
  refine ⟨byIdLoop_trace_order env now id order tick cs none, ?_⟩
  intro q hq
  exact (byIdLoop_trace_mem env now id order tick cs none q hq).2

/-- C8 counterexample: two runs of `cacheGetById` over the same cache
state and the same collaborator behaviour, whose only difference is the
map iteration order (both orders are permutations of the `Past` enum
values, hence possible Go map iteration orders), return different
errors — so which window's failure is reported is not the same across
runs, refuting the claimed run-to-run determinism. -/
theorem C8_window_order_counterexample :
    (cacheGetById envWinFail 0 0 [0, 1, 2, 3, 4] "eq42" initState).res ≠
    (cacheGetById envWinFail 0 0 [4, 3, 2, 1, 0] "eq42" initState).res := by
  decide

/-- Witness for the amended C8 on a concrete two-element order. -/
theorem C8_window_order_amended_witness :
    (∃ t, ([0, 1] : List Past).filter (fun p => p != Past_PAST_UNSPECIFIED)
      = (cacheGetById envWinFail 0 0 [0, 1] "eq42" initState).trace.map (fun q => q.1.2) ++ t) ∧
    ((Magnitude_MAGNITUDE_ALL, Past_PAST_HOUR),
      (Except.error (Err.fetchFail "PAST_HOUR") : Except Err EarthquakeCollection)).1.2
      ≠ Past_PAST_UNSPECIFIED := by
  obtain ⟨h1, h2⟩ := C8_window_order_amended envWinFail 0 0 [0, 1] "eq42" initState
  exact ⟨h1, h2 _ (by decide)⟩

end Quake
